import Mathlib

set_option maxRecDepth 2000

/-!
Verification development for the TeC (Tokuyama Educational Computer) toolchain:
a shallow embedding of the judge emulator (`tec.cpp`, class `TeC`) and of the
relevant fragments of the two-pass assembler (`tasm.cpp`), together with
theorems about the embedded code.

Machine integers (`uint8_t`, `uint16_t`, `int32_t`) are modelled as `Nat`/`Int`
with explicit `% 2^w` at every point where the C++ types truncate: every store
into an 8-bit field reduces the stored value `% 256`, every read of an 8-bit
quantity reduces `% 256` (a `uint8_t` can only hold values below 256), and the
16-bit timer accumulator reduces `% 65536`.
-/

namespace TeCSim

/-- CPU and peripheral state of the `TeC` class (`tec.cpp`).  Field names
follow the `m_`-fields of the C++ class.  All 8-bit quantities are `Nat`
(kept below 256 by the operations), flags are `Bool`, the 256-byte main
memory `m_mm` is a function from addresses to bytes. -/
structure TeCState where
  g0 : Nat
  g1 : Nat
  g2 : Nat
  sp : Nat
  pc : Nat
  c : Bool
  s : Bool
  z : Bool
  intEna : Bool
  run : Bool
  err : Bool
  mem : Nat → Nat
  dataSW : Nat
  rxReg : Nat
  txReg : Nat
  tmrCnt : Nat
  tmrPeriod : Nat
  parallelIn : Nat
  parallelOut : Nat
  extParallelOut : Nat
  adc0 : Nat
  adc1 : Nat
  adc2 : Nat
  adc3 : Nat
  buz : Bool
  spk : Bool
  txEmpty : Bool
  rxFull : Bool
  txIntEna : Bool
  rxIntEna : Bool
  tmrEna : Bool
  tmrIntEna : Bool
  cslIntEna : Bool
  extParallelOutEna : Bool
  tmrElapsed : Bool
  int0 : Bool
  int3 : Bool
  tmrClkCnt : Nat

/-- Operating frequency `StatesPerSec = 2'457'600` (tec.cpp). -/
def statesPerSec : Nat := 2457600

/-- Serial speed `SIOBitPerSec = 9'600` (tec.cpp). -/
def sioBitPerSec : Nat := 9600

/-- States per serial byte `SerialUnitStates = StatesPerSec / (SIOBitPerSec*8)`. -/
def serialUnitStates : Nat := statesPerSec / (sioBitPerSec * 8)

/-- Timer tick threshold `TmrClk = StatesPerSec / 75` (tec.cpp). -/
def tmrClk : Nat := statesPerSec / 75

/-- ROM (IPL) start address `RomStartAddr = 0xE0` (tec.cpp). -/
def romStartAddr : Nat := 0xE0

/-- Timer interrupt vector `Int0Vec = 0xDC`. -/
def int0Vec : Nat := 0xDC

/-- SIO receive interrupt vector `Int1Vec = 0xDD`. -/
def int1Vec : Nat := 0xDD

/-- SIO transmit interrupt vector `Int2Vec = 0xDE`. -/
def int2Vec : Nat := 0xDE

/-- Console interrupt vector `Int3Vec = 0xDF`. -/
def int3Vec : Nat := 0xDF

/-- `TeC::writeMem`: write to main memory, except that writes to the ROM
region (address `≥ 0xE0`) are silently dropped. -/
def writeMem (m : TeCState) (addr val : Nat) : TeCState :=
  if addr % 256 < romStartAddr then
    { m with mem := fun a => if a = addr % 256 then val % 256 else m.mem a }
  else m

/-- `TeC::readMem(uint8_t)`: read a byte of main memory. -/
def readMem (m : TeCState) (addr : Nat) : Nat :=
  m.mem (addr % 256) % 256

/-- `TeC::readReg`: read general register selected by the 2-bit GR field. -/
def readReg (m : TeCState) (gr : Nat) : Nat :=
  if gr = 0 then m.g0 % 256
  else if gr = 1 then m.g1 % 256
  else if gr = 2 then m.g2 % 256
  else if gr = 3 then m.sp % 256
  else 0

/-- `TeC::writeReg`: write general register selected by the 2-bit GR field. -/
def writeReg (m : TeCState) (gr : Nat) (val : Nat) : TeCState :=
  if gr = 0 then { m with g0 := val % 256 }
  else if gr = 1 then { m with g1 := val % 256 }
  else if gr = 2 then { m with g2 := val % 256 }
  else if gr = 3 then { m with sp := val % 256 }
  else m

/-- `TeC::calcAddr`: effective address from the XR field (direct,
G1-indexed, G2-indexed); immediate mode never reaches this function. -/
def calcAddr (m : TeCState) (xr addr : Nat) : Nat :=
  if xr = 0 then addr
  else if xr = 1 then (addr + m.g1) % 256
  else if xr = 2 then (addr + m.g2) % 256
  else 0

/-- `TeC::readMem(uint8_t xr, uint8_t addr)`: operand value for the XR
field; in immediate mode (`xr = 3`) the operand byte itself is the value. -/
def readMemX (m : TeCState) (xr addr : Nat) : Nat :=
  if xr = 0 then readMem m addr
  else if xr = 1 then readMem m (addr + m.g1)
  else if xr = 2 then readMem m (addr + m.g2)
  else addr

/-- The byte `M[PC]` (the value `TeC::fetch` returns). -/
def opByte (m : TeCState) : Nat := readMem m m.pc

/-- The `PC <- PC + 1` half of `TeC::fetch` (8-bit wrap). -/
def incPC (m : TeCState) : TeCState := { m with pc := (m.pc + 1) % 256 }

/-- `TeC::error`: set the error flag, clear the run flag. -/
def errState (m : TeCState) : TeCState := { m with err := true, run := false }

/-- The flags byte `IE<<7 | C<<2 | S<<1 | Z` that `TeC::interrupt` pushes. -/
def flagsByte (m : TeCState) : Nat :=
  (if m.intEna then 0x80 else 0x00) |||
    ((if m.c then 0x04 else 0x00) |||
      ((if m.s then 0x02 else 0x00) ||| (if m.z then 0x01 else 0x00)))

/-- `TeC::interrupt`: push PC (`M[--SP] = PC`), push the flags byte,
load PC from the interrupt vector, clear IE. -/
def interrupt (m : TeCState) (vec : Nat) : TeCState :=
  let m1 := { writeMem m (m.sp + 255) m.pc with sp := (m.sp + 255) % 256 }
  let m2 := { writeMem m1 (m1.sp + 255) (flagsByte m1) with
              sp := (m1.sp + 255) % 256 }
  { m2 with pc := readMem m2 vec, intEna := false }

/-- The timer block at the top of `TeC::step`: when the timer is enabled
and the state accumulator reached `TmrClk`, advance (or wrap) the counter
and possibly latch the elapsed flag / raise the timer interrupt. -/
def tickTimer (m : TeCState) : TeCState :=
  if m.tmrEna then
    if tmrClk ≤ m.tmrClkCnt then
      let m := { m with tmrClkCnt := 0 }
      if m.tmrCnt = m.tmrPeriod then
        let m := { m with tmrCnt := 0, tmrElapsed := true }
        if m.tmrIntEna then { m with int0 := true } else m
      else { m with tmrCnt := (m.tmrCnt + 1) % 256 }
    else m
  else m

/-- The interrupt-arbitration block of `TeC::step`: with IE set, dispatch
at most one interrupt, in priority order timer, RX, TX, console; the timer
and console pending flags are reset on dispatch. -/
def dispatchInts (m : TeCState) : TeCState :=
  if m.intEna then
    if m.tmrIntEna && m.int0 then interrupt { m with int0 := false } int0Vec
    else if m.rxIntEna && m.rxFull then interrupt m int1Vec
    else if m.txIntEna && m.txEmpty then interrupt m int2Vec
    else if m.cslIntEna && m.int3 then interrupt { m with int3 := false } int3Vec
    else m
  else m

/-- The `IN` port read (`TeC::step`, case 0xC, `xr = 0b00`, `addr < 0x10`):
returns the value read and the state after the read's side effects. -/
def inPort (m : TeCState) (a : Nat) : Nat × TeCState :=
  if a = 0x0 ∨ a = 0x1 then (m.dataSW % 256, m)
  else if a = 0x2 then (m.rxReg % 256, { m with rxFull := false })
  else if a = 0x3 then
    ((if m.rxFull then 0x40 else 0x00) ||| (if m.txEmpty then 0x80 else 0x00), m)
  else if a = 0x4 then (m.tmrCnt % 256, m)
  else if a = 0x5 then
    ((if m.tmrElapsed then 0x80 else 0x00), { m with tmrElapsed := false })
  else if a = 0x7 then (m.parallelIn % 256, m)
  else if a = 0x8 then (m.adc0 % 256, m)
  else if a = 0x9 then (m.adc1 % 256, m)
  else if a = 0xA then (m.adc2 % 256, m)
  else if a = 0xB then (m.adc3 % 256, m)
  else (0x00, m)

/-- The `OUT` port write (`TeC::step`, case 0xC, `xr = 0b11`, `addr < 0x10`). -/
def outPort (m : TeCState) (a val : Nat) : TeCState :=
  if a = 0x0 then { m with buz := val &&& 0x01 != 0 }
  else if a = 0x1 then { m with spk := val &&& 0x01 != 0 }
  else if a = 0x2 then { m with txReg := val % 256, txEmpty := false }
  else if a = 0x3 then
    { m with txIntEna := val &&& 0x80 != 0, rxIntEna := val &&& 0x40 != 0 }
  else if a = 0x4 then { m with tmrPeriod := val % 256 }
  else if a = 0x5 then
    let m := { m with tmrIntEna := val &&& 0x80 != 0 }
    if val &&& 0x01 != 0 then
      { m with tmrEna := true, tmrElapsed := false, tmrCnt := 0 }
    else { m with tmrEna := false }
  else if a = 0x6 then { m with cslIntEna := val &&& 0x01 != 0 }
  else if a = 0x7 then { m with parallelOut := val % 256 }
  else if a = 0xC then
    if val &&& 0x80 != 0 then
      { m with extParallelOutEna := true, extParallelOut := val &&& 0x0F }
    else { m with extParallelOutEna := false }
  else m

/-- `TeC::step`, case 0x0 (NO). -/
def execNO (gr xr : Nat) (m : TeCState) : TeCState × Nat :=
  if gr ≠ 0 ∨ xr ≠ 0 then (errState m, 0) else (m, 2)

/-- `TeC::step`, case 0x1 (LD). -/
def execLD (gr xr : Nat) (m : TeCState) : TeCState × Nat :=
  (writeReg (incPC m) gr (readMemX (incPC m) xr (opByte m)), 4)

/-- `TeC::step`, case 0x2 (ST); immediate mode is an error. -/
def execST (gr xr : Nat) (m : TeCState) : TeCState × Nat :=
  if xr = 0 then
    (writeMem (incPC m) (opByte m) (readReg (incPC m) gr), 3)
  else if xr = 1 then
    (writeMem (incPC m) (opByte m + m.g1) (readReg (incPC m) gr), 3)
  else if xr = 2 then
    (writeMem (incPC m) (opByte m + m.g2) (readReg (incPC m) gr), 3)
  else (errState m, 0)

/-- `TeC::step`, case 0x3 (ADD): 16-bit sum, C from bit 8, S from bit 7,
Z from the low byte, low byte stored. -/
def execADD (gr xr : Nat) (m : TeCState) : TeCState × Nat :=
  let v := readReg (incPC m) gr + readMemX (incPC m) xr (opByte m)
  (writeReg { incPC m with c := v &&& 0x100 != 0, s := v &&& 0x080 != 0,
                           z := v &&& 0x0FF == 0 } gr (v &&& 0xFF), 4)

/-- `TeC::step`, case 0x4 (SUB): 16-bit difference (uint16 wraparound). -/
def execSUB (gr xr : Nat) (m : TeCState) : TeCState × Nat :=
  let v := (readReg (incPC m) gr + 65536 - readMemX (incPC m) xr (opByte m)) %
    65536
  (writeReg { incPC m with c := v &&& 0x100 != 0, s := v &&& 0x080 != 0,
                           z := v &&& 0x0FF == 0 } gr (v &&& 0xFF), 4)

/-- `TeC::step`, case 0x5 (CMP): like SUB but the result is discarded. -/
def execCMP (gr xr : Nat) (m : TeCState) : TeCState × Nat :=
  let v := (readReg (incPC m) gr + 65536 - readMemX (incPC m) xr (opByte m)) %
    65536
  ({ incPC m with c := v &&& 0x100 != 0, s := v &&& 0x080 != 0,
                  z := v &&& 0x0FF == 0 }, 4)

/-- `TeC::step`, case 0x6 (AND): C cleared. -/
def execAND (gr xr : Nat) (m : TeCState) : TeCState × Nat :=
  let v := readReg (incPC m) gr &&& readMemX (incPC m) xr (opByte m)
  (writeReg { incPC m with c := false, s := v &&& 0x80 != 0, z := v == 0 }
    gr v, 4)

/-- `TeC::step`, case 0x7 (OR): C cleared. -/
def execOR (gr xr : Nat) (m : TeCState) : TeCState × Nat :=
  let v := readReg (incPC m) gr ||| readMemX (incPC m) xr (opByte m)
  (writeReg { incPC m with c := false, s := v &&& 0x80 != 0, z := v == 0 }
    gr v, 4)

/-- `TeC::step`, case 0x8 (XOR): C cleared. -/
def execXOR (gr xr : Nat) (m : TeCState) : TeCState × Nat :=
  let v := readReg (incPC m) gr ^^^ readMemX (incPC m) xr (opByte m)
  (writeReg { incPC m with c := false, s := v &&& 0x80 != 0, z := v == 0 }
    gr v, 4)

/-- `TeC::step`, case 0x9 (SHLA/SHLL/SHRA/SHRL, selected by XR). -/
def execSHIFT (gr xr : Nat) (m : TeCState) : TeCState × Nat :=
  let v0 := readReg m gr
  let p : Bool × Nat :=
    if xr = 0 ∨ xr = 1 then (v0 &&& 0x80 != 0, v0 * 2 % 256)
    else if xr = 2 then (v0 &&& 0x01 != 0, (v0 &&& 0x80) ||| (v0 >>> 1))
    else if xr = 3 then (v0 &&& 0x01 != 0, (v0 >>> 1) &&& 0x7F)
    else (m.c, v0)
  (writeReg { m with c := p.1, s := p.2 &&& 0x80 != 0, z := p.2 == 0 } gr p.2,
    3)

/-- `TeC::step`, case 0xA (JMP/JZ/JC/JM, condition selected by GR);
immediate mode is an error. -/
def execJMP (gr xr : Nat) (m : TeCState) : TeCState × Nat :=
  if xr = 3 then (errState m, 0)
  else
    let jmp := if gr = 0 then true
               else if gr = 1 then m.z
               else if gr = 2 then m.c
               else m.s
    let addr := calcAddr (incPC m) xr (opByte m)
    ((if jmp then { incPC m with pc := addr } else incPC m), 3)

/-- `TeC::step`, case 0xB (CALL/JNZ/JNC/JNM); CALL pushes the return PC
and costs one extra state; immediate mode is an error. -/
def execCALL (gr xr : Nat) (m : TeCState) : TeCState × Nat :=
  if xr = 3 then (errState m, 0)
  else
    let m1 := incPC m
    let addr := calcAddr m1 xr (opByte m)
    if gr = 0 then
      let m2 := { writeMem m1 (m1.sp + 255) m1.pc with
                  sp := (m1.sp + 255) % 256 }
      ({ m2 with pc := addr }, 4)
    else
      let jmp := if gr = 1 then !m1.z else if gr = 2 then !m1.c else !m1.s
      ((if jmp then { m1 with pc := addr } else m1), 3)

/-- `TeC::step`, case 0xC (IN with `xr = 0b00`, OUT with `xr = 0b11`,
otherwise error); an I/O address `≥ 0x10` is a runtime error. -/
def execInOut (gr xr : Nat) (m : TeCState) : TeCState × Nat :=
  if xr = 0 then
    let a := opByte m
    let m1 := incPC m
    if a < 0x10 then
      let r := inPort m1 a
      (writeReg r.2 gr r.1, 4)
    else (errState m1, 0)
  else if xr = 3 then
    let a := opByte m
    let m1 := incPC m
    if a < 0x10 then (outPort m1 a (readReg m1 gr), 3)
    else (errState m1, 0)
  else (errState m, 0)

/-- `TeC::step`, case 0xD (PUSH with `xr = 0b00`, POP with `xr = 0b10`,
otherwise error). -/
def execSTACK (gr xr : Nat) (m : TeCState) : TeCState × Nat :=
  if xr = 0 then
    let m1 := writeMem m (m.sp + 255) (readReg m gr)
    ({ m1 with sp := (m1.sp + 255) % 256 }, 3)
  else if xr = 2 then
    let m1 := writeReg m gr (readMem m m.sp)
    ({ m1 with sp := (m1.sp + 1) % 256 }, 4)
  else (errState m, 0)

/-- `TeC::step`, case 0xE (EI/DI/RET/RETI); RETI pops the flags byte and
then the return PC. -/
def execCTRL (gr xr : Nat) (m : TeCState) : TeCState × Nat :=
  if gr = 0 then
    if xr = 0 then ({ m with intEna := true }, 3)
    else if xr = 3 then ({ m with intEna := false }, 3)
    else (errState m, 0)
  else if gr = 3 then
    if xr = 0 then
      ({ m with pc := readMem m m.sp, sp := (m.sp + 1) % 256 }, 3)
    else if xr = 3 then
      let flg := readMem m m.sp
      let m1 := { m with sp := (m.sp + 1) % 256,
                         intEna := flg &&& 0x80 != 0, c := flg &&& 0x04 != 0,
                         s := flg &&& 0x02 != 0, z := flg &&& 0x01 != 0 }
      ({ m1 with pc := readMem m1 m1.sp, sp := (m1.sp + 1) % 256 }, 4)
    else (errState m, 0)
  else (errState m, 0)

/-- `TeC::step`, case 0xF (HALT with `gr = xr = 0b11`, otherwise error). -/
def execHALT (gr xr : Nat) (m : TeCState) : TeCState × Nat :=
  if gr = 3 ∧ xr = 3 then ({ m with run := false }, 0)
  else (errState m, 0)

/-- The decode-and-execute `switch (op)` of `TeC::step`.  `m` is the state
after the opcode fetch (PC already past the opcode byte); `op`, `gr`, `xr`
are the decoded fields of the opcode byte.  Returns the next state and the
consumed state count (0 on error, as in the source).  The decoded `op` is
always below 16, so the final arm is unreachable. -/
def execOp (op gr xr : Nat) (m : TeCState) : TeCState × Nat :=
  if op = 0x0 then execNO gr xr m
  else if op = 0x1 then execLD gr xr m
  else if op = 0x2 then execST gr xr m
  else if op = 0x3 then execADD gr xr m
  else if op = 0x4 then execSUB gr xr m
  else if op = 0x5 then execCMP gr xr m
  else if op = 0x6 then execAND gr xr m
  else if op = 0x7 then execOR gr xr m
  else if op = 0x8 then execXOR gr xr m
  else if op = 0x9 then execSHIFT gr xr m
  else if op = 0xA then execJMP gr xr m
  else if op = 0xB then execCALL gr xr m
  else if op = 0xC then execInOut gr xr m
  else if op = 0xD then execSTACK gr xr m
  else if op = 0xE then execCTRL gr xr m
  else if op = 0xF then execHALT gr xr m
  else (m, 0)

/-- Fetch, decode, and execute one instruction (the part of `TeC::step`
after the timer and interrupt blocks). -/
def execInst (m : TeCState) : TeCState × Nat :=
  let inst := opByte m
  execOp ((inst >>> 4) &&& 0xF) ((inst >>> 2) &&& 0x3) (inst &&& 0x3) (incPC m)

/-- `TeC::step`: one instruction boundary — timer tick, interrupt
dispatch, then fetch/decode/execute; the consumed states are added to the
16-bit timer accumulator `m_tmrClkCnt`. -/
def step (m : TeCState) : TeCState × Nat :=
  let r := execInst (dispatchInts (tickTimer m))
  ({ r.1 with tmrClkCnt := (r.1.tmrClkCnt + r.2) % 65536 }, r.2)

/-- `TeC::reset`: clear run/error flags, zero the registers and PC, set
TX-empty, clear RX-full and the SIO interrupt enables. -/
def reset (m : TeCState) : TeCState :=
  { m with run := false, err := false, g0 := 0, g1 := 0, g2 := 0, sp := 0,
           pc := 0, txEmpty := true, rxFull := false, txIntEna := false,
           rxIntEna := false }

/-- `TeC::setMM`: host-side memory write (goes through `writeMem`). -/
def setMM (m : TeCState) (addr val : Nat) : TeCState := writeMem m addr val

/-- Writes of `TeC::writeProg` for loop indices `i < n` (in increasing
order, as the C++ `for` loop runs). -/
def writeProgAux (m : TeCState) (start : Nat) (vals : Nat → Nat) :
    Nat → TeCState
  | 0 => m
  | n + 1 => writeMem (writeProgAux m start vals n) (start + n) (vals n)

/-- `TeC::writeProg`: write `size` program bytes starting at `start`
(each through `writeMem`). -/
def writeProg (m : TeCState) (start size : Nat) (vals : Nat → Nat) : TeCState :=
  writeProgAux m start vals size

/-- The 32 IPL ROM bytes preloaded at `0xE0..0xFF` by the `TeC`
constructor (tec.cpp, initializer of `m_mm`). -/
def iplBytes : List Nat :=
  [0x1F, 0xDC, 0xB0, 0xF6, 0xD0, 0xD6, 0xB0, 0xF6,
   0xD0, 0xDA, 0xA4, 0xFF, 0xB0, 0xF6, 0x21, 0x00,
   0x37, 0x01, 0x4B, 0x01, 0xA0, 0xEA, 0xC0, 0x03,
   0x63, 0x40, 0xA4, 0xF6, 0xC0, 0x02, 0xEC, 0xFF]

/-- Initial main-memory contents: zero below `0xE0`, the IPL bytes at
`0xE0..0xFF`. -/
def initMem (a : Nat) : Nat :=
  if romStartAddr ≤ a ∧ a ≤ 0xFF then iplBytes.getD (a - romStartAddr) 0 else 0

/-- The state the `TeC` constructor builds (tec.cpp, `TeC::TeC`). -/
def initTeC : TeCState :=
  { g0 := 0, g1 := 0, g2 := 0, sp := 0, pc := 0, c := false, s := false,
    z := false, intEna := false, run := false, err := false, mem := initMem,
    dataSW := 0, rxReg := 0, txReg := 0, tmrCnt := 0, tmrPeriod := 74,
    parallelIn := 0, parallelOut := 0, extParallelOut := 0, adc0 := 0,
    adc1 := 0, adc2 := 0, adc3 := 0, buz := false, spk := false,
    txEmpty := true, rxFull := false, txIntEna := false, rxIntEna := false,
    tmrEna := false, tmrIntEna := false, cslIntEna := false,
    extParallelOutEna := false, tmrElapsed := false, int0 := false,
    int3 := false, tmrClkCnt := 0 }

/-- `n` iterations of `TeC::step`, accumulating the consumed states
(the shape of the body of `TeC::clock`'s do-while loop). -/
def iterSteps : Nat → TeCState → Nat → TeCState × Nat
  | 0, m, acc => (m, acc)
  | n + 1, m, acc =>
    let r := step m
    iterSteps n r.1 (acc + r.2)

/-! Progress lemmas: every instruction either consumes at least two states
or clears the run flag.  They justify the termination of the embedding of
`TeC::clock`'s do-while loop, which is defined right after them. -/

theorem execNO_progress (gr xr : Nat) (m : TeCState) :
    2 ≤ (execNO gr xr m).2 ∨ (execNO gr xr m).1.run = false := by
  unfold execNO; split_ifs
  · exact Or.inr rfl
  · exact Or.inl (by simp)

theorem execLD_progress (gr xr : Nat) (m : TeCState) :
    2 ≤ (execLD gr xr m).2 ∨ (execLD gr xr m).1.run = false :=
  Or.inl (by simp [execLD])

theorem execST_progress (gr xr : Nat) (m : TeCState) :
    2 ≤ (execST gr xr m).2 ∨ (execST gr xr m).1.run = false := by
  unfold execST
  split_ifs <;> first | exact Or.inr rfl | exact Or.inl (by simp)

theorem execADD_progress (gr xr : Nat) (m : TeCState) :
    2 ≤ (execADD gr xr m).2 ∨ (execADD gr xr m).1.run = false :=
  Or.inl (by simp [execADD])

theorem execSUB_progress (gr xr : Nat) (m : TeCState) :
    2 ≤ (execSUB gr xr m).2 ∨ (execSUB gr xr m).1.run = false :=
  Or.inl (by simp [execSUB])

theorem execCMP_progress (gr xr : Nat) (m : TeCState) :
    2 ≤ (execCMP gr xr m).2 ∨ (execCMP gr xr m).1.run = false :=
  Or.inl (by simp [execCMP])

theorem execAND_progress (gr xr : Nat) (m : TeCState) :
    2 ≤ (execAND gr xr m).2 ∨ (execAND gr xr m).1.run = false :=
  Or.inl (by simp [execAND])

theorem execOR_progress (gr xr : Nat) (m : TeCState) :
    2 ≤ (execOR gr xr m).2 ∨ (execOR gr xr m).1.run = false :=
  Or.inl (by simp [execOR])

theorem execXOR_progress (gr xr : Nat) (m : TeCState) :
    2 ≤ (execXOR gr xr m).2 ∨ (execXOR gr xr m).1.run = false :=
  Or.inl (by simp [execXOR])

theorem execSHIFT_progress (gr xr : Nat) (m : TeCState) :
    2 ≤ (execSHIFT gr xr m).2 ∨ (execSHIFT gr xr m).1.run = false :=
  Or.inl (by simp [execSHIFT])

theorem execJMP_progress (gr xr : Nat) (m : TeCState) :
    2 ≤ (execJMP gr xr m).2 ∨ (execJMP gr xr m).1.run = false := by
  unfold execJMP
  split_ifs <;> first | exact Or.inr rfl | exact Or.inl (by simp)

theorem execCALL_progress (gr xr : Nat) (m : TeCState) :
    2 ≤ (execCALL gr xr m).2 ∨ (execCALL gr xr m).1.run = false := by
  unfold execCALL
  split_ifs <;> first | exact Or.inr rfl | exact Or.inl (by simp)

theorem execInOut_progress (gr xr : Nat) (m : TeCState) :
    2 ≤ (execInOut gr xr m).2 ∨ (execInOut gr xr m).1.run = false := by
  unfold execInOut
  dsimp only
  split_ifs <;> first | exact Or.inr rfl | exact Or.inl (by simp)

theorem execSTACK_progress (gr xr : Nat) (m : TeCState) :
    2 ≤ (execSTACK gr xr m).2 ∨ (execSTACK gr xr m).1.run = false := by
  unfold execSTACK
  split_ifs <;> first | exact Or.inr rfl | exact Or.inl (by simp)

theorem execCTRL_progress (gr xr : Nat) (m : TeCState) :
    2 ≤ (execCTRL gr xr m).2 ∨ (execCTRL gr xr m).1.run = false := by
  unfold execCTRL
  split_ifs <;> first | exact Or.inr rfl | exact Or.inl (by simp)

theorem execHALT_progress (gr xr : Nat) (m : TeCState) :
    2 ≤ (execHALT gr xr m).2 ∨ (execHALT gr xr m).1.run = false := by
  unfold execHALT
  split_ifs <;> exact Or.inr rfl

theorem execOp_progress (op gr xr : Nat) (m : TeCState) (hop : op < 16) :
    2 ≤ (execOp op gr xr m).2 ∨ (execOp op gr xr m).1.run = false := by
  interval_cases op
  · exact execNO_progress gr xr m
  · exact execLD_progress gr xr m
  · exact execST_progress gr xr m
  · exact execADD_progress gr xr m
  · exact execSUB_progress gr xr m
  · exact execCMP_progress gr xr m
  · exact execAND_progress gr xr m
  · exact execOR_progress gr xr m
  · exact execXOR_progress gr xr m
  · exact execSHIFT_progress gr xr m
  · exact execJMP_progress gr xr m
  · exact execCALL_progress gr xr m
  · exact execInOut_progress gr xr m
  · exact execSTACK_progress gr xr m
  · exact execCTRL_progress gr xr m
  · exact execHALT_progress gr xr m

theorem execInst_progress (m : TeCState) :
    2 ≤ (execInst m).2 ∨ (execInst m).1.run = false := by
  have h : (opByte m >>> 4) &&& 0xF < 16 := by
    have h1 := @Nat.and_le_right (opByte m >>> 4) 0xF
    omega
  exact execOp_progress ((opByte m >>> 4) &&& 0xF) ((opByte m >>> 2) &&& 0x3)
    (opByte m &&& 0x3) (incPC m) h

theorem step_progress (m : TeCState) :
    2 ≤ (step m).2 ∨ (step m).1.run = false :=
  execInst_progress (dispatchInts (tickTimer m))

/-- `TeC::clock`'s do-while loop: execute one instruction, repeat while
the accumulated states are below `maxStates` and the run flag is set. -/
def clockLoop (maxStates : Nat) (m : TeCState) (acc : Nat) : TeCState × Nat :=
  if h : acc + (step m).2 < maxStates ∧ (step m).1.run = true then
    clockLoop maxStates (step m).1 (acc + (step m).2)
  else ((step m).1, acc + (step m).2)
termination_by maxStates - acc
decreasing_by
  rcases step_progress m with h2 | h2
  · omega
  · rw [h2] at h
    simp at h

/-- `TeC::clock(maxStates)`: set the run flag, then run the do-while loop
(the body always executes at least once); returns the final state and the
accumulated states. -/
def clock (m : TeCState) (maxStates : Nat) : TeCState × Nat :=
  clockLoop maxStates { m with run := true } 0

end TeCSim

namespace Tasm

/-! Embedding of the assembler fragments of `tasm.cpp` that the claims
need: the Pass-1 parse-only expression scanner (`ParseVal`/`ParseMul`/
`ParseAdd` and their helpers), the `ORG` arm of `Pass1Line`, and the
name-table line format of `Pass2`.  A source line is a `List Char`; the
global cursor `CurIdx` is threaded explicitly.  The character classifiers
mirror the C classifiers on ASCII. -/

/-- `std::isdigit` on ASCII. -/
def isDigitC (ch : Char) : Bool := 48 ≤ ch.toNat && ch.toNat ≤ 57

/-- `std::isxdigit` on ASCII. -/
def isXDigitC (ch : Char) : Bool :=
  isDigitC ch || (65 ≤ ch.toNat && ch.toNat ≤ 70) ||
    (97 ≤ ch.toNat && ch.toNat ≤ 102)

/-- `std::isalpha` on ASCII. -/
def isAlphaC (ch : Char) : Bool :=
  (65 ≤ ch.toNat && ch.toNat ≤ 90) || (97 ≤ ch.toNat && ch.toNat ≤ 122)

/-- `std::isalnum` on ASCII. -/
def isAlnumC (ch : Char) : Bool := isAlphaC ch || isDigitC ch

/-- `std::isspace` on ASCII (space and the five control whitespaces). -/
def isSpaceC (ch : Char) : Bool := ch == ' ' || (9 ≤ ch.toNat && ch.toNat ≤ 13)

/-- `std::isprint` on ASCII. -/
def isPrintC (ch : Char) : Bool := 32 ≤ ch.toNat && ch.toNat ≤ 126

/-- The character `CurLine[i]` (out-of-range reads never happen on the
paths the claims take; they default to NUL). -/
def chAt (line : List Char) (i : Nat) : Char := line.getD i (Char.ofNat 0)

/-- `CurIdx < CurLine.size() && std::isdigit(CurLine[CurIdx])` (`IsDigit`). -/
def digitAt (line : List Char) (i : Nat) : Bool :=
  decide (i < line.length) && isDigitC (chAt line i)

/-- `IsXDigit` of tasm.cpp. -/
def xdigitAt (line : List Char) (i : Nat) : Bool :=
  decide (i < line.length) && isXDigitC (chAt line i)

/-- `IsNameStart` of tasm.cpp. -/
def nameStartAt (line : List Char) (i : Nat) : Bool :=
  decide (i < line.length) && (isAlphaC (chAt line i) || chAt line i == '_')

/-- `IsName` of tasm.cpp. -/
def nameAt (line : List Char) (i : Nat) : Bool :=
  decide (i < line.length) && (isAlnumC (chAt line i) || chAt line i == '_')

/-- The while-loop of `SkipSpace` (tasm.cpp), with the remaining line
length as structural fuel: the loop advances the cursor once per
iteration, so `line.length - i` iterations always suffice and the fuel
never runs out on the loop's own paths. -/
def skipSpaceGo : Nat → List Char → Nat → Nat
  | 0, _, i => i
  | f + 1, line, i =>
    if i < line.length ∧ isSpaceC (chAt line i) = true then
      skipSpaceGo f line (i + 1)
    else i

/-- `SkipSpace` of tasm.cpp: advance the cursor past whitespace. -/
def skipSpace (line : List Char) (i : Nat) : Nat :=
  skipSpaceGo (line.length - i) line i

/-- `IsCh` of tasm.cpp: test the current character and consume it when it
matches; returns the match flag and the new cursor. -/
def isChF (line : List Char) (i : Nat) (ch : Char) : Bool × Nat :=
  if i < line.length ∧ chAt line i = ch then (true, i + 1) else (false, i)

/-- The do-while loop of `ParseName` (consume name characters), with the
remaining line length as structural fuel; the fuel-0 arm coincides with
the loop's exit branch, which is the only reachable case there. -/
def parseNameGo : Nat → List Char → Nat → Nat
  | 0, _, i => i + 1
  | f + 1, line, i =>
    if nameAt line (i + 1) = true then parseNameGo f line (i + 1) else i + 1

/-- `ParseName` of tasm.cpp. -/
def parseNameF (line : List Char) (i : Nat) : Nat :=
  parseNameGo (line.length - i) line i

/-- The do-while loop of `ParseNum`: consume hex-digit characters,
remembering whether a non-decimal digit was seen; returns the cursor
after the run and the `isHex` flag.  Fuel as in `skipSpaceGo`. -/
def parseNumGo : Nat → List Char → Nat → Bool → Nat × Bool
  | 0, line, i, isHex =>
    (i + 1, if digitAt line i then isHex else true)
  | f + 1, line, i, isHex =>
    let isHex1 := if digitAt line i then isHex else true
    if xdigitAt line (i + 1) = true then parseNumGo f line (i + 1) isHex1
    else (i + 1, isHex1)

/-- `ParseNum` of tasm.cpp: scan a numeric literal; a literal containing a
hex digit must end in `H`/`h`, otherwise the scan fails. -/
def parseNumF (line : List Char) (i : Nat) : Bool × Nat :=
  let r := parseNumGo (line.length - i) line i false
  let hH := isChF line r.1 'H'
  if hH.1 then (true, hH.2)
  else
    let hh := isChF line r.1 'h'
    if hh.1 then (true, hh.2)
    else if r.2 then (false, r.1) else (true, r.1)

mutual

/-- `ParseVal` of tasm.cpp (parse-only Pass-1 scanner): optional sign,
then a parenthesized expression, character literal, number or name.
Returns the success flag and the new cursor; `fuel` bounds the recursion
depth (the C++ recursion is bounded by the cursor's progress). -/
def parseVal : Nat → List Char → Nat → Bool × Nat
  | 0, _, i => (false, i)
  | fuel + 1, line, i0 =>
    let i1 := skipSpace line i0
    let pl := isChF line i1 '+'
    let sg := if pl.1 then pl else isChF line i1 '-'
    let i2 := if sg.1 then skipSpace line sg.2 else sg.2
    let lp := isChF line i2 '('
    if lp.1 then
      let r := parseAdd fuel line lp.2
      if r.1 then
        let rp := isChF line r.2 ')'
        if rp.1 then (true, rp.2) else (false, rp.2)
      else (false, r.2)
    else
      let q := isChF line i2 '\''
      if q.1 then
        if line.length ≤ q.2 ∨ isPrintC (chAt line q.2) = false ∨
            chAt line q.2 = '\'' then (false, q.2)
        else
          let q2 := isChF line (q.2 + 1) '\''
          if q2.1 then (true, q2.2) else (false, q2.2)
      else if digitAt line i2 then parseNumF line i2
      else if nameStartAt line i2 then (true, parseNameF line i2)
      else (false, i2)
termination_by structural f _ _ => f

/-- The `for(;;)` loop of `ParseMul`: repeatedly consume `*` or `/`
followed by a value. -/
def parseMulGo : Nat → List Char → Nat → Bool × Nat
  | 0, _, i => (false, i)
  | fuel + 1, line, i0 =>
    let i1 := skipSpace line i0
    let st := isChF line i1 '*'
    let dv := if st.1 then st else isChF line i1 '/'
    if dv.1 then
      let r := parseVal fuel line dv.2
      if r.1 then parseMulGo fuel line r.2 else (false, r.2)
    else (true, i1)
termination_by structural f _ _ => f

/-- `ParseMul` of tasm.cpp: a value followed by the `*`/`/` loop. -/
def parseMul : Nat → List Char → Nat → Bool × Nat
  | 0, _, i => (false, i)
  | fuel + 1, line, i =>
    let r := parseVal fuel line i
    if r.1 then parseMulGo fuel line r.2 else (false, r.2)
termination_by structural f _ _ => f

/-- `ParseAdd` of tasm.cpp (Pass-1 parse-only scanner): parse a
multiplicative term; then, in the `for(;;)` loop, skip whitespace and —
as the source is written — return `false` as soon as a `+` or `-` is
consumed, otherwise break out and return `true`. -/
def parseAdd : Nat → List Char → Nat → Bool × Nat
  | 0, _, i => (false, i)
  | fuel + 1, line, i =>
    let r := parseMul fuel line i
    if r.1 then
      let j := skipSpace line r.2
      let pl := isChF line j '+'
      let mn := if pl.1 then pl else isChF line j '-'
      if mn.1 then (false, mn.2) else (true, j)
    else (false, r.2)
termination_by structural f _ _ => f

end

/-- The `ORG` arm of `Pass1Line` (tasm.cpp lines 999-1013), entered with
the current address, the pending label value (initialized to the current
address) and the operand value `val` that `GetAdd` evaluated (a signed
32-bit quantity).  If `val < curAddr` the invalid-org error is emitted
and the function returns with both values unchanged; otherwise the label
value and the current address (both `uint8_t`) are assigned `val`.
Returns (new current address, new label value, invalid-org emitted). -/
def pass1Org (curAddr labelNum : Nat) (val : Int) : Nat × Nat × Bool :=
  if val < (curAddr : Int) then (curAddr, labelNum, true)
  else ((val % 256).toNat, (val % 256).toNat, false)

/-- An uppercase hex digit (as `std::format`'s `X` writes it). -/
def hexDigitC (n : Nat) : Char :=
  if n < 10 then Char.ofNat (48 + n) else Char.ofNat (55 + n)

/-- One line of the name-table output (tasm.cpp `Pass2`, the format call
`format("{:<8} 0{:0>2X}H\n", label + ':', value & 0xFF)`): the label with
its trailing colon left-aligned in a field of width 8, then the literal
space of the format string, then `0`, two uppercase hex digits, `H`, and
the newline. -/
def nameTableLine (label : List Char) (value : Nat) : List Char :=
  let nm := label ++ [':']
  let padded := nm ++ List.replicate (8 - nm.length) ' '
  let v := value % 256
  padded ++ [' ', '0', hexDigitC (v / 16), hexDigitC (v % 16), 'H', '\n']

/-- The name-table line format exactly as claim C8 words it: the label
with its trailing colon padded to width 8, immediately followed by
`0XXH` (no separator).  Stated only for comparison with `nameTableLine`,
which is the embedding of the source. -/
def claimNameTableLine (label : List Char) (value : Nat) : List Char :=
  let nm := label ++ [':']
  let padded := nm ++ List.replicate (8 - nm.length) ' '
  let v := value % 256
  padded ++ ['0', hexDigitC (v / 16), hexDigitC (v % 16), 'H', '\n']

end Tasm

namespace TeCSim

/-! Projection lemmas: which fields each operation leaves untouched. -/

theorem writeMem_c (m : TeCState) (x v : Nat) : (writeMem m x v).c = m.c := by
  unfold writeMem; split_ifs <;> rfl

theorem writeMem_s (m : TeCState) (x v : Nat) : (writeMem m x v).s = m.s := by
  unfold writeMem; split_ifs <;> rfl

theorem writeMem_z (m : TeCState) (x v : Nat) : (writeMem m x v).z = m.z := by
  unfold writeMem; split_ifs <;> rfl

theorem writeMem_intEna (m : TeCState) (x v : Nat) :
    (writeMem m x v).intEna = m.intEna := by
  unfold writeMem; split_ifs <;> rfl

theorem writeMem_pc (m : TeCState) (x v : Nat) : (writeMem m x v).pc = m.pc := by
  unfold writeMem; split_ifs <;> rfl

theorem writeMem_sp (m : TeCState) (x v : Nat) : (writeMem m x v).sp = m.sp := by
  unfold writeMem; split_ifs <;> rfl

theorem writeMem_run (m : TeCState) (x v : Nat) :
    (writeMem m x v).run = m.run := by
  unfold writeMem; split_ifs <;> rfl

theorem writeMem_err (m : TeCState) (x v : Nat) :
    (writeMem m x v).err = m.err := by
  unfold writeMem; split_ifs <;> rfl

theorem writeReg_mem (m : TeCState) (gr v : Nat) :
    (writeReg m gr v).mem = m.mem := by
  unfold writeReg; split_ifs <;> rfl

theorem writeReg_c (m : TeCState) (gr v : Nat) : (writeReg m gr v).c = m.c := by
  unfold writeReg; split_ifs <;> rfl

theorem writeReg_err (m : TeCState) (gr v : Nat) :
    (writeReg m gr v).err = m.err := by
  unfold writeReg; split_ifs <;> rfl

theorem writeReg_run (m : TeCState) (gr v : Nat) :
    (writeReg m gr v).run = m.run := by
  unfold writeReg; split_ifs <;> rfl

theorem readReg_writeReg (m : TeCState) (gr v : Nat) (hgr : gr < 4) :
    readReg (writeReg m gr v) gr = v % 256 := by
  interval_cases gr <;> simp [readReg, writeReg]

theorem readReg_lt (m : TeCState) (gr : Nat) : readReg m gr < 256 := by
  unfold readReg; split_ifs <;> omega

theorem readMem_lt (m : TeCState) (a : Nat) : readMem m a < 256 := by
  unfold readMem; omega

theorem readMemX_lt (m : TeCState) (xr a : Nat) (ha : a < 256) :
    readMemX m xr a < 256 := by
  unfold readMemX
  split_ifs <;> first | exact readMem_lt m _ | exact ha

theorem inPort_mem (m : TeCState) (a : Nat) : (inPort m a).2.mem = m.mem := by
  simp only [inPort, apply_ite Prod.snd, apply_ite TeCState.mem, ite_self]

theorem inPort_err (m : TeCState) (a : Nat) : (inPort m a).2.err = m.err := by
  simp only [inPort, apply_ite Prod.snd, apply_ite TeCState.err, ite_self]

theorem inPort_run (m : TeCState) (a : Nat) : (inPort m a).2.run = m.run := by
  simp only [inPort, apply_ite Prod.snd, apply_ite TeCState.run, ite_self]

theorem outPort_mem (m : TeCState) (a v : Nat) :
    (outPort m a v).mem = m.mem := by
  simp only [outPort, apply_ite TeCState.mem, ite_self]

theorem tickTimer_mem (m : TeCState) : (tickTimer m).mem = m.mem := by
  simp only [tickTimer, apply_ite TeCState.mem, ite_self]

theorem tickTimer_pc (m : TeCState) : (tickTimer m).pc = m.pc := by
  simp only [tickTimer, apply_ite TeCState.pc, ite_self]

theorem tickTimer_sp (m : TeCState) : (tickTimer m).sp = m.sp := by
  simp only [tickTimer, apply_ite TeCState.sp, ite_self]

theorem tickTimer_intEna (m : TeCState) : (tickTimer m).intEna = m.intEna := by
  simp only [tickTimer, apply_ite TeCState.intEna, ite_self]

theorem tickTimer_c (m : TeCState) : (tickTimer m).c = m.c := by
  simp only [tickTimer, apply_ite TeCState.c, ite_self]

theorem tickTimer_s (m : TeCState) : (tickTimer m).s = m.s := by
  simp only [tickTimer, apply_ite TeCState.s, ite_self]

theorem tickTimer_z (m : TeCState) : (tickTimer m).z = m.z := by
  simp only [tickTimer, apply_ite TeCState.z, ite_self]

theorem dispatchInts_off (m : TeCState) (h : m.intEna = false) :
    dispatchInts m = m := by
  unfold dispatchInts; rw [h]; simp

/-! Preservation of the ROM region: every write path of the CPU goes
through `writeMem`, which drops writes at addresses `≥ 0xE0`. -/

theorem writeMem_mem_rom (a : Nat) (ha : romStartAddr ≤ a) (m : TeCState)
    (x v : Nat) : (writeMem m x v).mem a = m.mem a := by
  unfold writeMem
  split_ifs with h
  · dsimp only
    rw [if_neg]
    unfold romStartAddr at *
    omega
  · rfl

theorem interrupt_mem_rom (a : Nat) (ha : romStartAddr ≤ a) (m : TeCState)
    (vec : Nat) : (interrupt m vec).mem a = m.mem a := by
  simp only [interrupt, writeMem_mem_rom a ha]

theorem dispatchInts_mem_rom (a : Nat) (ha : romStartAddr ≤ a)
    (m : TeCState) : (dispatchInts m).mem a = m.mem a := by
  unfold dispatchInts
  split_ifs <;> simp only [interrupt_mem_rom a ha]

theorem execNO_mem (a : Nat) (ha : romStartAddr ≤ a) (gr xr : Nat)
    (m : TeCState) : ((execNO gr xr m).1).mem a = m.mem a := by
  unfold execNO; split_ifs <;> rfl

theorem execLD_mem (a : Nat) (ha : romStartAddr ≤ a) (gr xr : Nat)
    (m : TeCState) : ((execLD gr xr m).1).mem a = m.mem a := by
  simp only [execLD, writeReg_mem, incPC]

theorem execST_mem (a : Nat) (ha : romStartAddr ≤ a) (gr xr : Nat)
    (m : TeCState) : ((execST gr xr m).1).mem a = m.mem a := by
  unfold execST
  split_ifs <;> first | rfl | exact writeMem_mem_rom a ha _ _ _

theorem execADD_mem (a : Nat) (ha : romStartAddr ≤ a) (gr xr : Nat)
    (m : TeCState) : ((execADD gr xr m).1).mem a = m.mem a := by
  simp only [execADD, writeReg_mem, incPC]

theorem execSUB_mem (a : Nat) (ha : romStartAddr ≤ a) (gr xr : Nat)
    (m : TeCState) : ((execSUB gr xr m).1).mem a = m.mem a := by
  simp only [execSUB, writeReg_mem, incPC]

theorem execCMP_mem (a : Nat) (ha : romStartAddr ≤ a) (gr xr : Nat)
    (m : TeCState) : ((execCMP gr xr m).1).mem a = m.mem a := rfl

theorem execAND_mem (a : Nat) (ha : romStartAddr ≤ a) (gr xr : Nat)
    (m : TeCState) : ((execAND gr xr m).1).mem a = m.mem a := by
  simp only [execAND, writeReg_mem, incPC]

theorem execOR_mem (a : Nat) (ha : romStartAddr ≤ a) (gr xr : Nat)
    (m : TeCState) : ((execOR gr xr m).1).mem a = m.mem a := by
  simp only [execOR, writeReg_mem, incPC]

theorem execXOR_mem (a : Nat) (ha : romStartAddr ≤ a) (gr xr : Nat)
    (m : TeCState) : ((execXOR gr xr m).1).mem a = m.mem a := by
  simp only [execXOR, writeReg_mem, incPC]

theorem execSHIFT_mem (a : Nat) (ha : romStartAddr ≤ a) (gr xr : Nat)
    (m : TeCState) : ((execSHIFT gr xr m).1).mem a = m.mem a := by
  simp only [execSHIFT, writeReg_mem, incPC]

theorem execJMP_mem (a : Nat) (ha : romStartAddr ≤ a) (gr xr : Nat)
    (m : TeCState) : ((execJMP gr xr m).1).mem a = m.mem a := by
  unfold execJMP
  dsimp only
  split_ifs <;> rfl

theorem execCALL_mem (a : Nat) (ha : romStartAddr ≤ a) (gr xr : Nat)
    (m : TeCState) : ((execCALL gr xr m).1).mem a = m.mem a := by
  unfold execCALL
  dsimp only
  split_ifs <;> first | rfl | simp only [writeMem_mem_rom a ha, incPC]

theorem execInOut_mem (a : Nat) (ha : romStartAddr ≤ a) (gr xr : Nat)
    (m : TeCState) : ((execInOut gr xr m).1).mem a = m.mem a := by
  unfold execInOut
  dsimp only
  split_ifs <;>
    first | rfl | simp only [writeReg_mem, inPort_mem, outPort_mem, incPC]

theorem execSTACK_mem (a : Nat) (ha : romStartAddr ≤ a) (gr xr : Nat)
    (m : TeCState) : ((execSTACK gr xr m).1).mem a = m.mem a := by
  unfold execSTACK
  dsimp only
  split_ifs <;>
    first | rfl | simp only [writeMem_mem_rom a ha, writeReg_mem, incPC]

theorem execCTRL_mem (a : Nat) (ha : romStartAddr ≤ a) (gr xr : Nat)
    (m : TeCState) : ((execCTRL gr xr m).1).mem a = m.mem a := by
  unfold execCTRL
  dsimp only
  split_ifs <;> rfl

theorem execHALT_mem (a : Nat) (ha : romStartAddr ≤ a) (gr xr : Nat)
    (m : TeCState) : ((execHALT gr xr m).1).mem a = m.mem a := by
  unfold execHALT
  split_ifs <;> rfl

theorem execOp_mem (a : Nat) (ha : romStartAddr ≤ a) (op gr xr : Nat)
    (m : TeCState) : ((execOp op gr xr m).1).mem a = m.mem a := by
  unfold execOp
  by_cases h0 : op = 0
  · rw [if_pos h0]
    exact execNO_mem a ha gr xr m
  rw [if_neg h0]
  by_cases h1 : op = 1
  · rw [if_pos h1]
    exact execLD_mem a ha gr xr m
  rw [if_neg h1]
  by_cases h2 : op = 2
  · rw [if_pos h2]
    exact execST_mem a ha gr xr m
  rw [if_neg h2]
  by_cases h3 : op = 3
  · rw [if_pos h3]
    exact execADD_mem a ha gr xr m
  rw [if_neg h3]
  by_cases h4 : op = 4
  · rw [if_pos h4]
    exact execSUB_mem a ha gr xr m
  rw [if_neg h4]
  by_cases h5 : op = 5
  · rw [if_pos h5]
    exact execCMP_mem a ha gr xr m
  rw [if_neg h5]
  by_cases h6 : op = 6
  · rw [if_pos h6]
    exact execAND_mem a ha gr xr m
  rw [if_neg h6]
  by_cases h7 : op = 7
  · rw [if_pos h7]
    exact execOR_mem a ha gr xr m
  rw [if_neg h7]
  by_cases h8 : op = 8
  · rw [if_pos h8]
    exact execXOR_mem a ha gr xr m
  rw [if_neg h8]
  by_cases h9 : op = 9
  · rw [if_pos h9]
    exact execSHIFT_mem a ha gr xr m
  rw [if_neg h9]
  by_cases h10 : op = 10
  · rw [if_pos h10]
    exact execJMP_mem a ha gr xr m
  rw [if_neg h10]
  by_cases h11 : op = 11
  · rw [if_pos h11]
    exact execCALL_mem a ha gr xr m
  rw [if_neg h11]
  by_cases h12 : op = 12
  · rw [if_pos h12]
    exact execInOut_mem a ha gr xr m
  rw [if_neg h12]
  by_cases h13 : op = 13
  · rw [if_pos h13]
    exact execSTACK_mem a ha gr xr m
  rw [if_neg h13]
  by_cases h14 : op = 14
  · rw [if_pos h14]
    exact execCTRL_mem a ha gr xr m
  rw [if_neg h14]
  by_cases h15 : op = 15
  · rw [if_pos h15]
    exact execHALT_mem a ha gr xr m
  rw [if_neg h15]

theorem step_mem_rom (a : Nat) (ha : romStartAddr ≤ a) (m : TeCState) :
    ((step m).1).mem a = m.mem a := by
  show ((execOp _ _ _ _).1).mem a = m.mem a
  rw [execOp_mem a ha, show (incPC (dispatchInts (tickTimer m))).mem =
    (dispatchInts (tickTimer m)).mem from rfl,
    dispatchInts_mem_rom a ha, tickTimer_mem]

theorem iterSteps_mem_rom (a : Nat) (ha : romStartAddr ≤ a) :
    ∀ (n acc : Nat) (m : TeCState), ((iterSteps n m acc).1).mem a = m.mem a := by
  intro n
  induction n with
  | zero => intro acc m; rfl
  | succ k ih =>
    intro acc m
    show ((iterSteps k (step m).1 _).1).mem a = m.mem a
    rw [ih, step_mem_rom a ha]

theorem writeProgAux_mem_rom (a : Nat) (ha : romStartAddr ≤ a) (m : TeCState)
    (start : Nat) (vals : Nat → Nat) :
    ∀ n, (writeProgAux m start vals n).mem a = m.mem a := by
  intro n
  induction n with
  | zero => rfl
  | succ k ih =>
    show (writeMem _ _ _).mem a = m.mem a
    rw [writeMem_mem_rom a ha, ih]


/-! Claim C1 and its witness. -/

/-- C1: for every address `a` with `0xE0 ≤ a ≤ 0xFF`, no operation that
writes main memory — a CPU instruction executed by `step`, an interrupt
dispatch, `setMM`, or `writeProg` — ever changes `M[a]`: the write is
silently dropped, and after any sequence of steps from the freshly
constructed machine `M[a]` still holds the IPL byte it was initialized
with. -/
theorem rom_never_written (a : Nat) (h1 : romStartAddr ≤ a) (h2 : a ≤ 0xFF) :
    (∀ m : TeCState, ((step m).1).mem a = m.mem a) ∧
    (∀ (m : TeCState) (vec : Nat), (interrupt m vec).mem a = m.mem a) ∧
    (∀ (m : TeCState) (addr val : Nat), (setMM m addr val).mem a = m.mem a) ∧
    (∀ (m : TeCState) (start size : Nat) (vals : Nat → Nat),
      (writeProg m start size vals).mem a = m.mem a) ∧
    (∀ (n acc : Nat) (m : TeCState),
      ((iterSteps n m acc).1).mem a = m.mem a) ∧
    (∀ n acc : Nat, ((iterSteps n initTeC acc).1).mem a =
      iplBytes.getD (a - romStartAddr) 0) := by
  refine ⟨step_mem_rom a h1, interrupt_mem_rom a h1, ?_, ?_,
    iterSteps_mem_rom a h1, ?_⟩
  · intro m addr val
    exact writeMem_mem_rom a h1 m addr val
  · intro m start size vals
    exact writeProgAux_mem_rom a h1 m start vals size
  · intro n acc
    rw [iterSteps_mem_rom a h1]
    show initMem a = _
    unfold initMem
    rw [if_pos ⟨h1, h2⟩]

/-- Witness for C1 at the concrete ROM address 0xE5. -/
theorem rom_never_written_witness :
    ((step initTeC).1).mem 0xE5 = initTeC.mem 0xE5 ∧
    ((iterSteps 2 initTeC 0).1).mem 0xE5 = iplBytes.getD 5 0 := by
  constructor
  · exact (rom_never_written 0xE5 (by norm_num [romStartAddr])
      (by norm_num)).1 initTeC
  · exact (rom_never_written 0xE5 (by norm_num [romStartAddr])
      (by norm_num)).2.2.2.2.2 2 0

/-! Claim C9. -/

/-- C9: frame property of `TeC::reset` (the `$RESET` event): reset clears
G0, G1, G2, SP, PC, the run and error flags, sets TX-empty, and clears
RX-full and the TX/RX interrupt enables, while leaving everything else —
C, S, Z, IE, all of main memory, the timer state, the console-interrupt
state, the data switch, the parallel and ext-parallel registers, the ADC
channels, and the buzzer and speaker — unchanged. -/
theorem reset_frame (m : TeCState) :
    ((reset m).run = false ∧ (reset m).err = false ∧ (reset m).g0 = 0 ∧
      (reset m).g1 = 0 ∧ (reset m).g2 = 0 ∧ (reset m).sp = 0 ∧
      (reset m).pc = 0 ∧ (reset m).txEmpty = true ∧
      (reset m).rxFull = false ∧ (reset m).txIntEna = false ∧
      (reset m).rxIntEna = false) ∧
    ((reset m).c = m.c ∧ (reset m).s = m.s ∧ (reset m).z = m.z ∧
      (reset m).intEna = m.intEna ∧ (∀ a, (reset m).mem a = m.mem a) ∧
      (reset m).tmrEna = m.tmrEna ∧ (reset m).tmrPeriod = m.tmrPeriod ∧
      (reset m).tmrCnt = m.tmrCnt ∧ (reset m).tmrElapsed = m.tmrElapsed ∧
      (reset m).tmrIntEna = m.tmrIntEna ∧
      (reset m).tmrClkCnt = m.tmrClkCnt ∧ (reset m).int0 = m.int0 ∧
      (reset m).cslIntEna = m.cslIntEna ∧ (reset m).int3 = m.int3 ∧
      (reset m).dataSW = m.dataSW ∧ (reset m).rxReg = m.rxReg ∧
      (reset m).txReg = m.txReg ∧ (reset m).parallelIn = m.parallelIn ∧
      (reset m).parallelOut = m.parallelOut ∧
      (reset m).extParallelOut = m.extParallelOut ∧
      (reset m).extParallelOutEna = m.extParallelOutEna ∧
      (reset m).adc0 = m.adc0 ∧ (reset m).adc1 = m.adc1 ∧
      (reset m).adc2 = m.adc2 ∧ (reset m).adc3 = m.adc3 ∧
      (reset m).buz = m.buz ∧ (reset m).spk = m.spk) :=
  ⟨⟨rfl, rfl, rfl, rfl, rfl, rfl, rfl, rfl, rfl, rfl, rfl⟩,
    ⟨rfl, rfl, rfl, rfl, fun _ => rfl, rfl, rfl, rfl, rfl, rfl, rfl, rfl,
      rfl, rfl, rfl, rfl, rfl, rfl, rfl, rfl, rfl, rfl, rfl, rfl, rfl,
      rfl, rfl⟩⟩

/-! Claim C10. -/

theorem clockLoop_iter (maxStates : Nat) :
    ∀ (k acc : Nat) (m : TeCState), maxStates - acc ≤ k →
      ∃ n, 1 ≤ n ∧ clockLoop maxStates m acc = iterSteps n m acc := by
  intro k
  induction k with
  | zero =>
    intro acc m hk
    refine ⟨1, le_refl 1, ?_⟩
    rw [clockLoop, dif_neg]
    · rfl
    · intro hcon
      exact absurd hcon.1 (by omega)
  | succ k ih =>
    intro acc m hk
    by_cases hc : acc + (step m).2 < maxStates ∧ (step m).1.run = true
    · have hstep : 2 ≤ (step m).2 := by
        rcases step_progress m with h | h
        · exact h
        · rw [h] at hc
          exact absurd hc.2 (by simp)
      obtain ⟨n, hn1, hn2⟩ := ih (acc + (step m).2) (step m).1 (by omega)
      refine ⟨n + 1, by omega, ?_⟩
      rw [clockLoop, dif_pos hc]
      exact hn2
    · refine ⟨1, le_refl 1, ?_⟩
      rw [clockLoop, dif_neg hc]
      rfl

/-- C10: for every `maxStates` (including 0) and every starting state,
`TeC::clock` sets the run flag on entry and executes at least one
instruction step before first testing the do-while condition: the result
is always `n ≥ 1` iterated steps from the state with the run flag set,
and with `maxStates = 0` it is exactly one step. -/
theorem clock_always_steps (m : TeCState) (maxStates : Nat) :
    (∃ n, 1 ≤ n ∧
      clock m maxStates = iterSteps n { m with run := true } 0) ∧
    clock m 0 = step { m with run := true } := by
  constructor
  · exact clockLoop_iter maxStates maxStates 0 { m with run := true }
      (by omega)
  · show clockLoop 0 { m with run := true } 0 = _
    rw [clockLoop, dif_neg]
    · simp
    · intro hcon
      exact absurd hcon.1 (by omega)


/-! Bit-mask arithmetic used by the flag laws. -/

theorem and255_eq_mod (v : Nat) : v &&& 0xFF = v % 256 := by
  have h := Nat.and_pow_two_sub_one_eq_mod v 8
  norm_num at h
  exact h

theorem and256_pos (v : Nat) (h5 : v < 512) (h : 255 < v) :
    (v &&& 0x100 != 0) = true := by
  have h3 : Nat.testBit v 8 = true := by
    rw [Nat.testBit_to_div_mod]
    have hd : v / 2 ^ 8 = 1 := by
      have hp : (2 : Nat) ^ 8 = 256 := by norm_num
      rw [hp]
      omega
    rw [hd]
    rfl
  have h2 := Nat.and_two_pow v 8
  rw [h3] at h2
  norm_num at h2
  show (v &&& 256 != 0) = true
  rw [h2]
  rfl

/-! Claim C2 and its witness. -/

/-- C2: flag laws of one executed instruction (`execOp op gr xr m` is the
decoded `switch (op)` case of `TeC::step`, with `m` the state after the
opcode fetch): after ADD with register value A and operand value B with
A+B > 255, the C flag is 1 and the destination register holds the low 8
bits of A+B; after AND, OR or XOR the C flag is 0; and CMP changes none of
G0, G1, G2, SP. -/
theorem flag_laws (m : TeCState) (gr xr : Nat) (hgr : gr < 4) :
    (255 < readReg m gr + readMemX m xr (opByte m) →
      (execOp 0x3 gr xr m).1.c = true ∧
      readReg (execOp 0x3 gr xr m).1 gr =
        (readReg m gr + readMemX m xr (opByte m)) % 256) ∧
    (execOp 0x6 gr xr m).1.c = false ∧
    (execOp 0x7 gr xr m).1.c = false ∧
    (execOp 0x8 gr xr m).1.c = false ∧
    ((execOp 0x5 gr xr m).1.g0 = m.g0 ∧ (execOp 0x5 gr xr m).1.g1 = m.g1 ∧
      (execOp 0x5 gr xr m).1.g2 = m.g2 ∧ (execOp 0x5 gr xr m).1.sp = m.sp) := by
  have hA := readReg_lt m gr
  have hB : readMemX m xr (opByte m) < 256 :=
    readMemX_lt m xr (opByte m) (readMem_lt m m.pc)
  refine ⟨?_, writeReg_c _ _ _, writeReg_c _ _ _, writeReg_c _ _ _,
    rfl, rfl, rfl, rfl⟩
  intro hab
  constructor
  · have h1 : (execOp 0x3 gr xr m).1.c =
        (readReg m gr + readMemX m xr (opByte m) &&& 0x100 != 0) :=
      writeReg_c _ _ _
    rw [h1]
    exact and256_pos _ (by omega) hab
  · have h2 : readReg (execOp 0x3 gr xr m).1 gr =
        (readReg m gr + readMemX m xr (opByte m) &&& 0xFF) % 256 :=
      readReg_writeReg _ _ _ hgr
    rw [h2, and255_eq_mod]
    omega

/-- Witness for C2 on a concrete state: G0 = 200, immediate operand 100. -/
theorem flag_laws_witness :
    (execOp 0x3 0 3 { initTeC with g0 := 200, mem := fun _ => 100 }).1.c =
      true ∧
    readReg (execOp 0x3 0 3
      { initTeC with g0 := 200, mem := fun _ => 100 }).1 0 = 44 ∧
    (execOp 0x6 0 3 { initTeC with g0 := 200, mem := fun _ => 100 }).1.c =
      false ∧
    (execOp 0x5 0 3 { initTeC with g0 := 200, mem := fun _ => 100 }).1.g0 =
      200 := by
  have h := flag_laws { initTeC with g0 := 200, mem := fun _ => 100 } 0 3
    (by norm_num)
  have h1 := h.1 (by decide)
  refine ⟨h1.1, ?_, h.2.1, h.2.2.2.2.1⟩
  rw [h1.2]
  decide

/-! Interrupt-dispatch field lemmas for claims C3 and C4. -/

theorem writeMem_int0 (m : TeCState) (x v : Nat) :
    (writeMem m x v).int0 = m.int0 := by
  unfold writeMem; split_ifs <;> rfl

theorem writeMem_int3 (m : TeCState) (x v : Nat) :
    (writeMem m x v).int3 = m.int3 := by
  unfold writeMem; split_ifs <;> rfl

theorem writeMem_rxFull (m : TeCState) (x v : Nat) :
    (writeMem m x v).rxFull = m.rxFull := by
  unfold writeMem; split_ifs <;> rfl

theorem writeMem_txEmpty (m : TeCState) (x v : Nat) :
    (writeMem m x v).txEmpty = m.txEmpty := by
  unfold writeMem; split_ifs <;> rfl

theorem interrupt_sp (m : TeCState) (vec : Nat) :
    (interrupt m vec).sp = (m.sp + 254) % 256 := by
  show ((m.sp + 255) % 256 + 255) % 256 = (m.sp + 254) % 256
  omega

theorem interrupt_c (m : TeCState) (vec : Nat) :
    (interrupt m vec).c = m.c := by
  simp only [interrupt, writeMem_c]

theorem interrupt_s (m : TeCState) (vec : Nat) :
    (interrupt m vec).s = m.s := by
  simp only [interrupt, writeMem_s]

theorem interrupt_z (m : TeCState) (vec : Nat) :
    (interrupt m vec).z = m.z := by
  simp only [interrupt, writeMem_z]

theorem interrupt_intEna (m : TeCState) (vec : Nat) :
    (interrupt m vec).intEna = false := rfl

theorem interrupt_int0 (m : TeCState) (vec : Nat) :
    (interrupt m vec).int0 = m.int0 := by
  simp only [interrupt, writeMem_int0]

theorem interrupt_int3 (m : TeCState) (vec : Nat) :
    (interrupt m vec).int3 = m.int3 := by
  simp only [interrupt, writeMem_int3]

theorem interrupt_rxFull (m : TeCState) (vec : Nat) :
    (interrupt m vec).rxFull = m.rxFull := by
  simp only [interrupt, writeMem_rxFull]

theorem interrupt_txEmpty (m : TeCState) (vec : Nat) :
    (interrupt m vec).txEmpty = m.txEmpty := by
  simp only [interrupt, writeMem_txEmpty]

/-! Claim C3 and its witness. -/

/-- C3: at an instruction boundary with IE set, at most one interrupt is
dispatched, in the fixed priority order timer, RX, TX, console.  With all
four sources pending and enabled, the dispatched interrupt is the timer
one (vector `0xDC`), exactly one frame is pushed (SP drops by 2), the
timer pending flag is cleared while the console pending flag and the
RX-full/TX-empty conditions are untouched; on a console dispatch the
console pending flag is cleared; RX and TX dispatches clear neither
RX-full nor TX-empty. -/
theorem interrupt_priority (m : TeCState) :
    (m.intEna = true → m.tmrIntEna = true → m.int0 = true →
      m.rxIntEna = true → m.rxFull = true → m.txIntEna = true →
      m.txEmpty = true → m.cslIntEna = true → m.int3 = true →
      dispatchInts m = interrupt { m with int0 := false } int0Vec ∧
      (dispatchInts m).int0 = false ∧ (dispatchInts m).int3 = true ∧
      (dispatchInts m).rxFull = true ∧ (dispatchInts m).txEmpty = true ∧
      (dispatchInts m).sp = (m.sp + 254) % 256) ∧
    (m.intEna = true → (m.tmrIntEna && m.int0) = false →
      m.rxIntEna = true → m.rxFull = true →
      dispatchInts m = interrupt m int1Vec ∧
      (dispatchInts m).rxFull = true) ∧
    (m.intEna = true → (m.tmrIntEna && m.int0) = false →
      (m.rxIntEna && m.rxFull) = false → m.txIntEna = true →
      m.txEmpty = true →
      dispatchInts m = interrupt m int2Vec ∧
      (dispatchInts m).txEmpty = true) ∧
    (m.intEna = true → (m.tmrIntEna && m.int0) = false →
      (m.rxIntEna && m.rxFull) = false → (m.txIntEna && m.txEmpty) = false →
      m.cslIntEna = true → m.int3 = true →
      dispatchInts m = interrupt { m with int3 := false } int3Vec ∧
      (dispatchInts m).int3 = false) := by
  refine ⟨?_, ?_, ?_, ?_⟩
  · intro hie htie hi0 hrie hrf htxe hte hcie hi3
    have hd : dispatchInts m = interrupt { m with int0 := false } int0Vec := by
      unfold dispatchInts
      rw [hie, htie, hi0]
      simp
    refine ⟨hd, ?_, ?_, ?_, ?_, ?_⟩
    · rw [hd, interrupt_int0]
    · rw [hd, interrupt_int3]
      exact hi3
    · rw [hd, interrupt_rxFull]
      exact hrf
    · rw [hd, interrupt_txEmpty]
      exact hte
    · rw [hd, interrupt_sp]
  · intro hie htmr hrie hrf
    have hd : dispatchInts m = interrupt m int1Vec := by
      unfold dispatchInts
      rw [hie, htmr, hrie, hrf]
      simp
    refine ⟨hd, ?_⟩
    rw [hd, interrupt_rxFull]
    exact hrf
  · intro hie htmr hrx htie hte
    have hd : dispatchInts m = interrupt m int2Vec := by
      unfold dispatchInts
      rw [hie, htmr, hrx, htie, hte]
      simp
    refine ⟨hd, ?_⟩
    rw [hd, interrupt_txEmpty]
    exact hte
  · intro hie htmr hrx htx hcie hi3
    have hd : dispatchInts m = interrupt { m with int3 := false } int3Vec := by
      unfold dispatchInts
      rw [hie, htmr, hrx, htx, hcie, hi3]
      simp
    refine ⟨hd, ?_⟩
    rw [hd, interrupt_int3]

/-- A state with all four interrupt sources pending and enabled (used by
the witness of C3). -/
def mAllPending : TeCState :=
  { initTeC with
      intEna := true
      tmrIntEna := true
      int0 := true
      rxIntEna := true
      rxFull := true
      txIntEna := true
      txEmpty := true
      cslIntEna := true
      int3 := true
      sp := 0x80 }

/-- Witness for C3 on `mAllPending`. -/
theorem interrupt_priority_witness :
    (dispatchInts mAllPending).int0 = false ∧
    (dispatchInts mAllPending).int3 = true ∧
    (dispatchInts mAllPending).sp = 0x7E := by
  have h := (interrupt_priority mAllPending).1 rfl rfl rfl rfl rfl rfl rfl
    rfl rfl
  exact ⟨h.2.1, h.2.2.1, h.2.2.2.2.2⟩


/-! Flags-byte laws and pointwise memory facts for claim C4. -/

theorem flagsByte_lt (m : TeCState) : flagsByte m < 256 := by
  unfold flagsByte
  cases m.intEna <;> cases m.c <;> cases m.s <;> cases m.z <;> decide

theorem flagsByte_and80 (m : TeCState) :
    (flagsByte m &&& 0x80 != 0) = m.intEna := by
  unfold flagsByte
  cases m.intEna <;> cases m.c <;> cases m.s <;> cases m.z <;> decide

theorem flagsByte_and04 (m : TeCState) :
    (flagsByte m &&& 0x04 != 0) = m.c := by
  unfold flagsByte
  cases m.intEna <;> cases m.c <;> cases m.s <;> cases m.z <;> decide

theorem flagsByte_and02 (m : TeCState) :
    (flagsByte m &&& 0x02 != 0) = m.s := by
  unfold flagsByte
  cases m.intEna <;> cases m.c <;> cases m.s <;> cases m.z <;> decide

theorem flagsByte_and01 (m : TeCState) :
    (flagsByte m &&& 0x01 != 0) = m.z := by
  unfold flagsByte
  cases m.intEna <;> cases m.c <;> cases m.s <;> cases m.z <;> decide

theorem writeMem_mem_self (m : TeCState) (x v : Nat)
    (h : x % 256 < romStartAddr) :
    (writeMem m x v).mem (x % 256) = v % 256 := by
  unfold writeMem
  rw [if_pos h]
  dsimp only
  rw [if_pos rfl]

theorem writeMem_mem_other (m : TeCState) (x v a : Nat) (h : a ≠ x % 256) :
    (writeMem m x v).mem a = m.mem a := by
  unfold writeMem
  split_ifs
  · dsimp only
    rw [if_neg h]
  · rfl

/-- Where the two bytes pushed by `TeC::interrupt` land (given both stack
slots are below the ROM): the flags byte at `SP-2`, the old PC at `SP-1`. -/
theorem readMem_eq (m : TeCState) (a : Nat) :
    readMem m a = m.mem (a % 256) % 256 := rfl

theorem opByte_eq (m : TeCState) : opByte m = m.mem (m.pc % 256) % 256 := rfl

theorem incPC_sp (m : TeCState) : (incPC m).sp = m.sp := rfl

theorem incPC_mem (m : TeCState) : (incPC m).mem = m.mem := rfl

set_option maxHeartbeats 3200000 in
theorem interrupt_mem (m : TeCState) (vec : Nat) :
    (interrupt m vec).mem =
      (writeMem { writeMem m (m.sp + 255) m.pc with
          sp := (m.sp + 255) % 256 }
        ((m.sp + 255) % 256 + 255)
        (flagsByte { writeMem m (m.sp + 255) m.pc with
            sp := (m.sp + 255) % 256 })).mem := rfl

/-- Where the two bytes pushed by `TeC::interrupt` land (given both stack
slots are below the ROM): the flags byte at `SP-2`, the old PC at `SP-1`. -/
theorem interrupt_mem_flags (m : TeCState) (vec : Nat)
    (h1 : (m.sp + 255) % 256 < romStartAddr)
    (h2 : (m.sp + 254) % 256 < romStartAddr) :
    (interrupt m vec).mem ((m.sp + 254) % 256) = flagsByte m % 256 ∧
    (interrupt m vec).mem ((m.sp + 255) % 256) = m.pc % 256 := by
  have hx : ((m.sp + 255) % 256 + 255) % 256 = (m.sp + 254) % 256 := by
    omega
  have hfb : flagsByte { writeMem m (m.sp + 255) m.pc with
      sp := (m.sp + 255) % 256 } = flagsByte m := by
    unfold flagsByte
    simp only [writeMem_intEna, writeMem_c, writeMem_s, writeMem_z]
  constructor
  · rw [interrupt_mem, hfb, ← hx]
    exact writeMem_mem_self _ _ _ (by rw [hx]; exact h2)
  · rw [interrupt_mem, writeMem_mem_other _ _ _ _ (by omega)]
    show (writeMem m (m.sp + 255) m.pc).mem ((m.sp + 255) % 256) =
      m.pc % 256
    exact writeMem_mem_self _ _ _ h1

/-! Reduction lemmas for one `step` that executes a RETI. -/

theorem step_fst_intEna (m : TeCState) :
    (step m).1.intEna = (execInst (dispatchInts (tickTimer m))).1.intEna :=
  rfl

theorem step_fst_c (m : TeCState) :
    (step m).1.c = (execInst (dispatchInts (tickTimer m))).1.c := rfl

theorem step_fst_s (m : TeCState) :
    (step m).1.s = (execInst (dispatchInts (tickTimer m))).1.s := rfl

theorem step_fst_z (m : TeCState) :
    (step m).1.z = (execInst (dispatchInts (tickTimer m))).1.z := rfl

theorem step_fst_pc (m : TeCState) :
    (step m).1.pc = (execInst (dispatchInts (tickTimer m))).1.pc := rfl

theorem step_fst_sp (m : TeCState) :
    (step m).1.sp = (execInst (dispatchInts (tickTimer m))).1.sp := rfl

theorem execInst_eq (m : TeCState) :
    execInst m = execOp ((opByte m >>> 4) &&& 0xF) ((opByte m >>> 2) &&& 0x3)
      (opByte m &&& 0x3) (incPC m) := rfl

theorem execOp_reti (m : TeCState) :
    execOp ((0xEF >>> 4) &&& 0xF) ((0xEF >>> 2) &&& 0x3) (0xEF &&& 0x3) m =
      execCTRL 3 3 m := rfl

theorem execCTRL_reti_intEna (m : TeCState) :
    (execCTRL 3 3 m).1.intEna = (readMem m m.sp &&& 0x80 != 0) := rfl

theorem execCTRL_reti_c (m : TeCState) :
    (execCTRL 3 3 m).1.c = (readMem m m.sp &&& 0x04 != 0) := rfl

theorem execCTRL_reti_s (m : TeCState) :
    (execCTRL 3 3 m).1.s = (readMem m m.sp &&& 0x02 != 0) := rfl

theorem execCTRL_reti_z (m : TeCState) :
    (execCTRL 3 3 m).1.z = (readMem m m.sp &&& 0x01 != 0) := rfl

theorem execCTRL_reti_pc (m : TeCState) :
    (execCTRL 3 3 m).1.pc = m.mem (((m.sp + 1) % 256) % 256) % 256 := rfl

theorem execCTRL_reti_sp (m : TeCState) :
    (execCTRL 3 3 m).1.sp = ((m.sp + 1) % 256 + 1) % 256 := rfl

/-! Claim C4 and its witness. -/

/-- C4: RETI is the exact inverse of the interrupt push sequence.  For
every state in which an interrupt to vector `vec` is dispatched, provided
the two stacked bytes lie below `0xE0` and the byte at the handler entry
is the RETI opcode `0xEF` (the handler is just RETI, so the stacked bytes
are not overwritten), executing that RETI step restores IE, C, S, Z, PC
(and SP) to their pre-interrupt values. -/
theorem reti_inverts (m : TeCState) (vec : Nat)
    (h1 : (m.sp + 255) % 256 < romStartAddr)
    (h2 : (m.sp + 254) % 256 < romStartAddr)
    (h3 : readMem (interrupt m vec) (interrupt m vec).pc = 0xEF) :
    (step (interrupt m vec)).1.intEna = m.intEna ∧
    (step (interrupt m vec)).1.c = m.c ∧
    (step (interrupt m vec)).1.s = m.s ∧
    (step (interrupt m vec)).1.z = m.z ∧
    (step (interrupt m vec)).1.pc = m.pc % 256 ∧
    (step (interrupt m vec)).1.sp = m.sp % 256 := by
  obtain ⟨hfmem, hpmem⟩ := interrupt_mem_flags m vec h1 h2
  have hdisp : dispatchInts (tickTimer (interrupt m vec)) =
      tickTimer (interrupt m vec) := by
    apply dispatchInts_off
    rw [tickTimer_intEna, interrupt_intEna]
  have hop : opByte (tickTimer (interrupt m vec)) = 0xEF := by
    rw [opByte_eq, tickTimer_mem, tickTimer_pc]
    rw [readMem_eq] at h3
    exact h3
  have hflg : readMem (incPC (tickTimer (interrupt m vec)))
      (incPC (tickTimer (interrupt m vec))).sp = flagsByte m := by
    rw [readMem_eq, incPC_mem, incPC_sp, tickTimer_mem, tickTimer_sp,
      interrupt_sp,
      show ((m.sp + 254) % 256) % 256 = (m.sp + 254) % 256 from by omega,
      hfmem]
    have := flagsByte_lt m
    omega
  refine ⟨?_, ?_, ?_, ?_, ?_, ?_⟩
  · rw [step_fst_intEna, hdisp, execInst_eq, hop, execOp_reti,
      execCTRL_reti_intEna, hflg]
    exact flagsByte_and80 m
  · rw [step_fst_c, hdisp, execInst_eq, hop, execOp_reti,
      execCTRL_reti_c, hflg]
    exact flagsByte_and04 m
  · rw [step_fst_s, hdisp, execInst_eq, hop, execOp_reti,
      execCTRL_reti_s, hflg]
    exact flagsByte_and02 m
  · rw [step_fst_z, hdisp, execInst_eq, hop, execOp_reti,
      execCTRL_reti_z, hflg]
    exact flagsByte_and01 m
  · rw [step_fst_pc, hdisp, execInst_eq, hop, execOp_reti,
      execCTRL_reti_pc, incPC_mem, incPC_sp, tickTimer_mem, tickTimer_sp,
      interrupt_sp,
      show (((m.sp + 254) % 256 + 1) % 256) % 256 = (m.sp + 255) % 256
        from by omega,
      hpmem]
    omega
  · rw [step_fst_sp, hdisp, execInst_eq, hop, execOp_reti,
      execCTRL_reti_sp, incPC_sp, tickTimer_sp, interrupt_sp]
    omega

/-- A state about to take an interrupt whose handler (at `0x50`) is a
single RETI (used by the witness of C4). -/
def mRETI : TeCState :=
  { initTeC with
      sp := 0x20
      pc := 0x12
      c := true
      z := true
      intEna := true
      mem := fun a => if a = 0xDC then 0x50
                      else if a = 0x50 then 0xEF else initMem a }

/-- Witness for C4 on `mRETI` with the timer vector. -/
theorem reti_inverts_witness :
    (step (interrupt mRETI 0xDC)).1.intEna = mRETI.intEna ∧
    (step (interrupt mRETI 0xDC)).1.c = mRETI.c ∧
    (step (interrupt mRETI 0xDC)).1.pc = mRETI.pc % 256 := by
  have h := reti_inverts mRETI 0xDC (by decide) (by decide) (by decide)
  exact ⟨h.1, h.2.1, h.2.2.2.2.1⟩


/-! Claim C6 and its witness. -/

theorem execOp_io (gr xr : Nat) (m : TeCState) :
    execOp 0xC gr xr m = execInOut gr xr m := rfl

theorem execInOut_err_big (m : TeCState) (gr xr : Nat) (hp : 0x10 ≤ opByte m)
    (hxr : xr = 0 ∨ xr = 3) :
    (execInOut gr xr m).1.err = true ∧ (execInOut gr xr m).1.run = false := by
  have hlt : ¬ (opByte m < 0x10) := by omega
  rcases hxr with h | h <;> subst h
  · unfold execInOut
    dsimp only
    rw [if_pos rfl, if_neg hlt]
    exact ⟨rfl, rfl⟩
  · unfold execInOut
    dsimp only
    rw [if_neg (by norm_num), if_pos rfl, if_neg hlt]
    exact ⟨rfl, rfl⟩

theorem execInOut_in_zero (m : TeCState) (gr : Nat) (hgr : gr < 4)
    (hp : opByte m = 0x6 ∨ (0xC ≤ opByte m ∧ opByte m ≤ 0xF)) :
    (execInOut gr 0 m).1.err = m.err ∧ (execInOut gr 0 m).1.run = m.run ∧
      readReg (execInOut gr 0 m).1 gr = 0 := by
  have hlt : opByte m < 0x10 := by rcases hp with h | h <;> omega
  have hzero : inPort (incPC m) (opByte m) = (0, incPC m) := by
    rcases hp with h | h
    · rw [h]
      unfold inPort
      norm_num
    · have h12 : opByte m = 12 ∨ opByte m = 13 ∨ opByte m = 14 ∨
          opByte m = 15 := by omega
      rcases h12 with h' | h' | h' | h' <;> rw [h'] <;> unfold inPort <;>
        norm_num
  unfold execInOut
  dsimp only
  rw [if_pos rfl, if_pos hlt, hzero]
  refine ⟨writeReg_err _ _ _, writeReg_run _ _ _, ?_⟩
  have h0 := readReg_writeReg (incPC m) gr 0 hgr
  rw [h0]

/-- C6: executing IN or OUT (`execOp 0xC`, the IN/OUT case of
`TeC::step`, where the operand byte `opByte m` is the I/O address) with
an I/O address of `0x10` or greater sets the error flag and clears the
run flag; IN from any of the ports 6 and 0xC through 0xF succeeds (error
and run flags untouched) and loads 0 into the destination register. -/
theorem io_port_laws (m : TeCState) (gr xr : Nat) (hgr : gr < 4) :
    (0x10 ≤ opByte m → xr = 0 ∨ xr = 3 →
      (execOp 0xC gr xr m).1.err = true ∧
      (execOp 0xC gr xr m).1.run = false) ∧
    (opByte m = 0x6 ∨ (0xC ≤ opByte m ∧ opByte m ≤ 0xF) →
      (execOp 0xC gr 0 m).1.err = m.err ∧
      (execOp 0xC gr 0 m).1.run = m.run ∧
      readReg (execOp 0xC gr 0 m).1 gr = 0) := by
  constructor
  · intro hp hxr
    rw [execOp_io]
    exact execInOut_err_big m gr xr hp hxr
  · intro hp
    rw [execOp_io]
    exact execInOut_in_zero m gr hgr hp

/-- A state whose whole memory reads 0x10 (an out-of-range I/O address). -/
def mIOBig : TeCState :=
  { initTeC with mem := fun _ => 0x10 }

/-- A state whose whole memory reads 0x0C (a read-as-zero port). -/
def mIOZero : TeCState :=
  { initTeC with g0 := 99, mem := fun _ => 0x0C }

/-- Witness for C6 on concrete states. -/
theorem io_port_laws_witness :
    (execOp 0xC 0 0 mIOBig).1.err = true ∧
    (execOp 0xC 0 0 mIOBig).1.run = false ∧
    readReg (execOp 0xC 0 0 mIOZero).1 0 = 0 := by
  have h1 := (io_port_laws mIOBig 0 0 (by norm_num)).1 (by decide)
    (Or.inl rfl)
  have h2 := (io_port_laws mIOZero 0 0 (by norm_num)).2 (by decide)
  exact ⟨h1.1, h1.2, h2.2.2⟩

end TeCSim

namespace Tasm

/-! Claim C5: the Pass-1 scanner and binary infix operators. -/

/-- Counterexample for C5: on the two-term expression `A+B` the Pass-1
scanner `ParseAdd` consumes the `A` and the `+` and returns `false`
(cursor at 2); it does not consume the whole expression and return
`true`. -/
theorem parseAdd_counterexample :
    parseAdd 8 ['A', '+', 'B'] 0 = (false, 2) ∧
    parseAdd 8 ['A', '+', 'B'] 0 ≠ (true, 3) := by decide

/-- C5 (amended): the Pass-1 parse-only scanner does not support binary
infix `+`/`-`.  Whenever `ParseMul` succeeds and the next non-whitespace
character is `+` or `-`, `ParseAdd` consumes that one operator character
and returns `false` (as the source's early `return false` is written),
so every `term + term` or `term - term` expression is rejected. -/
theorem parseAdd_stops_at_infix (fuel : Nat) (line : List Char) (i : Nat)
    (h1 : (parseMul fuel line i).1 = true)
    (h2 : skipSpace line (parseMul fuel line i).2 < line.length)
    (h3 : chAt line (skipSpace line (parseMul fuel line i).2) = '+' ∨
      chAt line (skipSpace line (parseMul fuel line i).2) = '-') :
    parseAdd (fuel + 1) line i =
      (false, skipSpace line (parseMul fuel line i).2 + 1) := by
  simp only [parseAdd]
  rw [if_pos h1]
  rcases h3 with h | h
  · have hpl : isChF line (skipSpace line (parseMul fuel line i).2) '+' =
        (true, skipSpace line (parseMul fuel line i).2 + 1) := by
      unfold isChF
      rw [if_pos ⟨h2, h⟩]
    rw [hpl]
    simp
  · have hpl : isChF line (skipSpace line (parseMul fuel line i).2) '+' =
        (false, skipSpace line (parseMul fuel line i).2) := by
      unfold isChF
      rw [if_neg]
      rintro ⟨hh, hc⟩
      rw [h] at hc
      exact absurd hc (by decide)
    have hmn : isChF line (skipSpace line (parseMul fuel line i).2) '-' =
        (true, skipSpace line (parseMul fuel line i).2 + 1) := by
      unfold isChF
      rw [if_pos ⟨h2, h⟩]
    rw [hpl, hmn]
    simp

/-- Witness for C5 (amended) on the concrete line `X-Y`. -/
theorem parseAdd_stops_at_infix_witness :
    parseAdd 8 ['X', '-', 'Y'] 0 = (false, 2) := by
  have h := parseAdd_stops_at_infix 7 ['X', '-', 'Y'] 0 (by decide)
    (by decide) (Or.inr (by decide))
  rw [h]
  decide

/-! Claim C7: Pass-1 `ORG`. -/

/-- Counterexample for C7: `ORG 300` at current address 0 does not set the
current address to 300; the `uint8_t` assignment truncates it to 44. -/
theorem pass1Org_counterexample :
    pass1Org 0 0 300 = (44, 44, false) ∧ (44 : Nat) ≠ 300 := by decide

/-- C7 (amended): for every `ORG expr` line, if the evaluated `expr` is
below the current address the invalid-org error is emitted and the
current address and label value are unchanged; otherwise both become
`expr` reduced modulo 256 (the `uint8_t` truncation), which equals `expr`
itself whenever `expr ≤ 255`. -/
theorem pass1Org_spec (curAddr labelNum : Nat) (val : Int) :
    (val < (curAddr : Int) →
      pass1Org curAddr labelNum val = (curAddr, labelNum, true)) ∧
    ((curAddr : Int) ≤ val →
      pass1Org curAddr labelNum val =
        ((val % 256).toNat, (val % 256).toNat, false) ∧
      (val ≤ 255 → ((val % 256).toNat : Int) = val)) := by
  constructor
  · intro h
    unfold pass1Org
    rw [if_pos h]
  · intro h
    constructor
    · unfold pass1Org
      rw [if_neg (not_lt.mpr h)]
    · intro h255
      have h0 : (0 : Int) ≤ val := le_trans (Int.natCast_nonneg curAddr) h
      omega

/-- Witness for C7 (amended): backwards `ORG` errors out, forwards `ORG`
moves the address. -/
theorem pass1Org_spec_witness :
    pass1Org 10 10 5 = (10, 10, true) ∧
    pass1Org 10 10 32 = (32, 32, false) := by
  have h1 := (pass1Org_spec 10 10 5).1 (by decide)
  have h2 := (pass1Org_spec 10 10 32).2 (by decide)
  refine ⟨h1, ?_⟩
  rw [h2.1]
  decide

/-! Claim C8: the name-table line format. -/

/-- Counterexample for C8: the name-table line for label `NAME` with
value 0x12 contains a space between the width-8 `NAME:` field and the
`0XXH` value (the format string's literal blank), so the padded name is
not immediately followed by the value. -/
theorem nameTableLine_counterexample :
    nameTableLine ['N', 'A', 'M', 'E'] 18 =
      ['N', 'A', 'M', 'E', ':', ' ', ' ', ' ', ' ', '0', '1', '2', 'H',
        '\n'] ∧
    nameTableLine ['N', 'A', 'M', 'E'] 18 ≠
      claimNameTableLine ['N', 'A', 'M', 'E'] 18 := by decide

/-- C8 (amended): for every label (of at most 7 characters) with an 8-bit
value, the name-table line is the label with its trailing colon padded to
a total width of 8, then a single separating space, then `0` plus two
uppercase hex digits plus `H`, then the newline — 14 characters in all,
with no other characters on the line. -/
theorem nameTableLine_spec (label : List Char) (v : Nat) (hv : v < 256)
    (hl : label.length ≤ 7) :
    nameTableLine label v =
      label ++ [':'] ++ List.replicate (7 - label.length) ' ' ++
        [' ', '0', hexDigitC (v / 16), hexDigitC (v % 16), 'H', '\n'] ∧
    (nameTableLine label v).length = 14 := by
  have hmod : v % 256 = v := Nat.mod_eq_of_lt hv
  constructor
  · unfold nameTableLine
    dsimp only
    rw [hmod]
    rw [show (label ++ [':']).length = label.length + 1 from by simp]
    rw [show 8 - (label.length + 1) = 7 - label.length from by omega]
  · unfold nameTableLine
    dsimp only
    simp only [List.length_append, List.length_replicate]
    simp
    omega

/-- Witness for C8 (amended) on label `A` with value 7. -/
theorem nameTableLine_spec_witness :
    (nameTableLine ['A'] 7).length = 14 :=
  (nameTableLine_spec ['A'] 7 (by decide) (by decide)).2

end Tasm

